import Mathlib

/-!
Verification of the SVD recommendation pipeline (src/svd.py) against its
specification.  The Python source is shallowly embedded: matrices are lists
of rows of rationals, rating records are a structure, and each Python
function is translated to a Lean function of the same name.  Real-number
arithmetic of the source is modelled over ℚ (the pipeline uses only field
operations; the single square root, in `rmse = sqrt(mse)`, is strictly
monotone and zero-preserving, so statements are made about the mean squared
error).
-/

namespace SVD

/-- A dense user×item matrix, as a list of rows (numpy 2-D array). -/
abbrev Mat := List (List ℚ)

/-- Minimum of a list of rationals, 0 on the empty list (numpy `.min()` is
only applied to non-empty data in the pipeline; theorems carry explicit
non-emptiness hypotheses). -/
def listMin : List ℚ → ℚ
  | [] => 0
  | x :: xs => xs.foldl min x

/-- Maximum of a list of rationals, 0 on the empty list. -/
def listMax : List ℚ → ℚ
  | [] => 0
  | x :: xs => xs.foldl max x

/-- numpy `reconstructed.min()`: minimum over all entries. -/
def matMin (m : Mat) : ℚ := listMin m.flatten

/-- numpy `reconstructed.max()`: maximum over all entries. -/
def matMax (m : Mat) : ℚ := listMax m.flatten

/-- Entry of a matrix at row `i`, column `j` (0 when out of range). -/
def matEntry (m : Mat) (i j : ℕ) : ℚ := (m.getD i []).getD j 0

/-- One row of the ratings dataframe: `(userId, movieId, rating, timestamp)`. -/
structure RatingRec where
  userId : ℕ
  movieId : ℕ
  rating : ℚ
  timestamp : ℚ
deriving Repr, DecidableEq

/-- pandas `ratings['rating'].min()`. -/
def minRating (df : List RatingRec) : ℚ := listMin (df.map (·.rating))

/-- pandas `ratings['rating'].max()`. -/
def maxRating (df : List RatingRec) : ℚ := listMax (df.map (·.rating))

/-- The affine min–max map applied cell-wise by `normalize_predictions`
(svd.py line 48): `(x - lo) / (hi - lo) * (rmax - rmin) + rmin`. -/
def rescale (lo hi rmin rmax x : ℚ) : ℚ :=
  (x - lo) / (hi - lo) * (rmax - rmin) + rmin

/-- Embedding of `normalize_predictions(reconstructed, ratings)`
(svd.py lines 45–48): rescales every entry of `reconstructed` by the affine
min–max transform onto the rating range of the `ratings` dataframe argument.
The source has no branch for the degenerate case `max == min`; there the
denominator `hi - lo` is 0 (numpy produces NaN/Inf; rational division by
zero yields 0 here — either way, no fallback exists in the code). -/
def normalize_predictions (reconstructed : Mat) (ratings : List RatingRec) : Mat :=
  reconstructed.map (fun row => row.map
    (rescale (matMin reconstructed) (matMax reconstructed)
      (minRating ratings) (maxRating ratings)))

/-- Configuration constant `N_COMPONENTS = 10` (svd.py line 18). -/
def N_COMPONENTS : ℕ := 10

/-- Configuration constant `RANDOM_STATE = 42` (svd.py line 19). -/
def RANDOM_STATE : ℕ := 42

/-- Number of columns of a dense matrix (all rows have equal length in the
pipeline; taken from the first row, numpy `shape[1]`). -/
def nCols (m : Mat) : ℕ := (m.getD 0 []).length

/-- Error raised by the factorization stage. -/
inductive SvdError where
  | invalidComponents
deriving Repr, DecidableEq

/-- Models the argument-validation contract of sklearn
`TruncatedSVD(n_components=...).fit_transform`: sklearn raises
`ValueError: n_components must be < n_features` when
`n_components >= n_features`, and otherwise runs the randomized SVD.  The
floating-point factor computation itself is outside the embedding; only the
success/failure contract, which is all the rank-handling claims concern, is
modelled. -/
def truncatedSVD_fit_check (n_components n_features : ℕ) : Except SvdError Unit :=
  if n_components < n_features then .ok () else .error .invalidComponents

/-- Embedding of the success/failure behaviour of `train_svd(matrix)`
(svd.py lines 50–56): constructs `TruncatedSVD` with the fixed, unclamped
`N_COMPONENTS` and fits it to the matrix.  There is no clamping of the rank
in the source; the call succeeds exactly when `N_COMPONENTS < n_items`. -/
def train_svd (matrix : Mat) : Except SvdError Unit :=
  truncatedSVD_fit_check N_COMPONENTS (nCols matrix)

/-- Column `j` of the product row: `Σₖ row[k] * B[k][j]`. -/
def dotCol (row : List ℚ) (B : Mat) (j : ℕ) : ℚ :=
  ((row.zip B).map (fun p => p.1 * p.2.getD j 0)).sum

/-- Matrix product, numpy `np.dot`: `C[i][j] = Σₖ A[i][k] * B[k][j]`. -/
def matMul (A B : Mat) : Mat :=
  A.map (fun row => (List.range (nCols B)).map (fun j => dotCol row B j))

/-- numpy `np.diag(Sigma)`. -/
def diagM (s : List ℚ) : Mat :=
  (List.range s.length).map (fun i =>
    (List.range s.length).map (fun j => if i = j then s.getD i 0 else 0))

/-- Embedding of `reconstruct_matrix(U, Sigma, VT, ratings)`
(svd.py lines 58–61): `np.dot(U, np.dot(np.diag(Sigma), VT))` followed by
`normalize_predictions` with the `ratings` dataframe argument. -/
def reconstruct_matrix (U : Mat) (Sigma : List ℚ) (VT : Mat)
    (ratings : List RatingRec) : Mat :=
  normalize_predictions (matMul U (matMul (diagM Sigma) VT)) ratings

/-- pandas `ratings.sort_values('timestamp')` (svd.py line 105).  The source
uses pandas' default (unstable) quicksort; a stable merge sort is used here —
every claim about the temporal split depends only on which records are
selected by the timestamp threshold, which is order-independent. -/
def ratings_sorted (ratings : List RatingRec) : List RatingRec :=
  ratings.mergeSort (fun a b => decide (a.timestamp ≤ b.timestamp))

/-- pandas `Series.quantile(0.8)` with the default linear interpolation:
with the values sorted ascending and `pos = (n-1) * 0.8`, the quantile is
`v[⌊pos⌋] + (pos - ⌊pos⌋) * (v[⌊pos⌋+1] - v[⌊pos⌋])`. -/
def quantile80 (ts : List ℚ) : ℚ :=
  let sorted := ts.mergeSort (fun a b => decide (a ≤ b))
  let pos : ℚ := ((ts.length : ℚ) - 1) * (4 / 5)
  let lo : ℕ := (⌊pos⌋).toNat
  sorted.getD lo 0 + (pos - (lo : ℚ)) * (sorted.getD (lo + 1) 0 - sorted.getD lo 0)

/-- The temporal cutoff `ratings_sorted['timestamp'].quantile(0.8)`
(svd.py line 106). -/
def temporalCutoff (ratings : List RatingRec) : ℚ :=
  quantile80 ((ratings_sorted ratings).map (·.timestamp))

/-- `train_temporal = ratings_sorted[ratings_sorted['timestamp'] <= cutoff]`
(svd.py line 107). -/
def train_temporal (ratings : List RatingRec) : List RatingRec :=
  (ratings_sorted ratings).filter (fun r => decide (r.timestamp ≤ temporalCutoff ratings))

/-- `test_temporal = ratings_sorted[ratings_sorted['timestamp'] > cutoff]`
(svd.py line 108). -/
def test_temporal (ratings : List RatingRec) : List RatingRec :=
  (ratings_sorted ratings).filter (fun r => decide (temporalCutoff ratings < r.timestamp))

/-- The predicted matrix of the temporal run of `main` (svd.py lines
115–119): `pred_matrix = reconstruct_matrix(U, Sigma, VT, train_df)` with
`train_df = train_temporal` — the dataframe handed to the rescaler is the
*train split*, not the full `ratings` table.  The SVD factors `U, Sigma, VT`
are abstract inputs (their floating-point computation is outside the
embedding). -/
def temporal_pred_matrix (ratings : List RatingRec) (U : Mat) (Sigma : List ℚ)
    (VT : Mat) : Mat :=
  reconstruct_matrix U Sigma VT (train_temporal ratings)

/-- Distinct identifiers in ascending order: pandas pivot tables sort their
index and columns and keep each label once. -/
def sortedUnique (l : List ℕ) : List ℕ :=
  l.dedup.mergeSort (fun a b => decide (a ≤ b))

/-- Mean of the ratings a user gave one movie, the implicit `pivot_table`
aggregation (`aggfunc='mean'`); `0` when no such record exists
(`fill_value=0`), since rational division by zero is zero. -/
def cellMean (df : List RatingRec) (u m : ℕ) : ℚ :=
  let rs := (df.filter (fun r => decide (r.userId = u) && decide (r.movieId = m))).map (·.rating)
  rs.sum / (rs.length : ℚ)

/-- A pandas pivot table: row index of user ids, column index of movie ids,
and the rectangular table of values. -/
structure PivotTable where
  index : List ℕ
  columns : List ℕ
  values : List (List ℚ)
deriving Repr, DecidableEq

/-- Embedding of `create_user_movie_matrix(df)` (svd.py lines 28–30):
`df.pivot_table(index='userId', columns='movieId', values='rating',
fill_value=0)`. -/
def create_user_movie_matrix (df : List RatingRec) : PivotTable :=
  let idx := sortedUnique (df.map (·.userId))
  let cols := sortedUnique (df.map (·.movieId))
  ⟨idx, cols, idx.map (fun u => cols.map (fun m => cellMean df u m))⟩

/-- Value of a pivot table at user label `u` and movie label `c`. -/
def entryAt (t : PivotTable) (u c : ℕ) : ℚ :=
  (t.values.getD (t.index.indexOf u) []).getD (t.columns.indexOf c) 0

/-- pandas `.loc[rows, cols]` label-based projection. -/
def locSelect (t : PivotTable) (rs cs : List ℕ) : PivotTable :=
  ⟨rs, cs, rs.map (fun u => cs.map (fun c => entryAt t u c))⟩

/-- Embedding of `preprocess_splits(train_df, test_df)` (svd.py lines
32–43): builds the two pivot tables, intersects their indexes and columns
(pandas `Index.intersection` keeps the calling — train — index's order, here
ascending since pivot indexes are sorted), and projects both tables onto the
common labels. -/
def preprocess_splits (train_df test_df : List RatingRec) : PivotTable × PivotTable :=
  let train_matrix := create_user_movie_matrix train_df
  let test_matrix := create_user_movie_matrix test_df
  let common_users := train_matrix.index.filter (fun u => decide (u ∈ test_matrix.index))
  let common_movies := train_matrix.columns.filter (fun c => decide (c ∈ test_matrix.columns))
  (locSelect train_matrix common_users common_movies,
   locSelect test_matrix common_users common_movies)

/-- The sort used by the recommender (svd.py line 97):
`recommendations.sort(key=lambda x: x[1], reverse=True)` — a stable
descending sort on the score component. -/
def sortRecs (l : List (ℕ × ℚ)) : List (ℕ × ℚ) :=
  l.mergeSort (fun a b => decide (b.2 ≤ a.2))

/-- Embedding of `recommend_movies(user_id, pred_matrix, user_mapper,
movie_mapper, top_n)` (svd.py lines 81–98).  `top_n` defaults to 5 in the
source; it is an explicit argument here.  Both the sentinel test
(`pred_matrix[user_idx] == 0`) and the reported score come from the same
row of `pred_matrix`. -/
def recommend_movies (user_id : ℕ) (pred_matrix : Mat)
    (user_mapper movie_mapper : List ℕ) (top_n : ℕ) : List (ℕ × ℚ) :=
  if user_id ∈ user_mapper then
    let user_idx := user_mapper.indexOf user_id
    let user_ratings := pred_matrix.getD user_idx []
    let unrated_movie_indices :=
      (List.range user_ratings.length).filter (fun j => decide (user_ratings.getD j 0 = 0))
    let recommendations :=
      unrated_movie_indices.map (fun j => (movie_mapper.getD j 0, user_ratings.getD j 0))
    (sortRecs recommendations).take top_n
  else []

/-- Error raised by the evaluation stage: sklearn's metrics raise
`ValueError: Found array with 0 sample(s)` when the masked arrays are
empty. -/
inductive EvalError where
  | insufficientData
deriving Repr, DecidableEq

/-- The `(true, predicted)` pairs at the non-sentinel positions of the test
matrix (svd.py lines 65–67): `mask = true_flat != 0` applied to both
flattened matrices. -/
def selectedPairs (true_matrix pred_matrix : Mat) : List (ℚ × ℚ) :=
  (true_matrix.flatten.zip pred_matrix.flatten).filter (fun q => decide (q.1 ≠ 0))

/-- Binarization at a threshold, `(value >= threshold).astype(int)`
(svd.py lines 72–73). -/
def binarize (threshold v : ℚ) : ℕ := if threshold ≤ v then 1 else 0

/-- Number of positions whose true label is `c` (sklearn class support). -/
def supportOf (z : List (ℕ × ℕ)) (c : ℕ) : ℕ := z.countP (fun q => decide (q.1 = c))

/-- Number of positions labelled `c` by both true and predicted vectors. -/
def truePosOf (z : List (ℕ × ℕ)) (c : ℕ) : ℕ :=
  z.countP (fun q => decide (q.1 = c) && decide (q.2 = c))

/-- Number of positions whose predicted label is `c`. -/
def predPosOf (z : List (ℕ × ℕ)) (c : ℕ) : ℕ := z.countP (fun q => decide (q.2 = c))

/-- Per-class precision with `zero_division=0` (rational division by zero is
0, and the numerator is 0 whenever the denominator is, so the convention is
automatic). -/
def classPrecision (z : List (ℕ × ℕ)) (c : ℕ) : ℚ :=
  (truePosOf z c : ℚ) / (predPosOf z c : ℚ)

/-- Per-class recall with `zero_division=0`. -/
def classRecall (z : List (ℕ × ℕ)) (c : ℕ) : ℚ :=
  (truePosOf z c : ℚ) / (supportOf z c : ℚ)

/-- Per-class F1, the harmonic mean of precision and recall (0 when both
vanish, matching `zero_division=0`). -/
def classF1 (z : List (ℕ × ℕ)) (c : ℕ) : ℚ :=
  2 * classPrecision z c * classRecall z c / (classPrecision z c + classRecall z c)

/-- sklearn `average='weighted'` over the two binary classes: each class's
metric weighted by its support, normalized by the total number of samples. -/
def weightedAvg (z : List (ℕ × ℕ)) (metric : ℕ → ℚ) : ℚ :=
  ((supportOf z 0 : ℚ) * metric 0 + (supportOf z 1 : ℚ) * metric 1) / (z.length : ℚ)

/-- `precision_score(..., zero_division=0, average='weighted')` on binary
labels (svd.py line 75). -/
def precisionW (z : List (ℕ × ℕ)) : ℚ := weightedAvg z (classPrecision z)

/-- `recall_score(..., zero_division=0, average='weighted')` on binary
labels (svd.py line 76). -/
def recallW (z : List (ℕ × ℕ)) : ℚ := weightedAvg z (classRecall z)

/-- `f1_score(..., zero_division=0, average='weighted')` on binary labels
(svd.py line 77). -/
def f1W (z : List (ℕ × ℕ)) : ℚ := weightedAvg z (classF1 z)

/-- Embedding of `evaluate_predictions(true_matrix, pred_matrix)`
(svd.py lines 63–79) with the binarization threshold as a parameter (the
source fixes it to 3.5 inside the function body).  The first component of
the result is the mean squared error over the selected positions; the
source reports `rmse = sqrt(mse)` (square roots leave ℚ; `sqrt` is
strictly monotone and zero exactly on zero, so every claim is stated on the
mse).  When the selected position set is empty, sklearn's
`mean_squared_error` raises before anything is returned; this is the
`insufficientData` error. -/
def evaluateWith (threshold : ℚ) (true_matrix pred_matrix : Mat) :
    Except EvalError (ℚ × ℚ × ℚ × ℚ) :=
  let pairs := selectedPairs true_matrix pred_matrix
  if pairs.isEmpty then .error .insufficientData
  else
    let mse := ((pairs.map (fun q => (q.1 - q.2) ^ 2)).sum) / (pairs.length : ℚ)
    let z := pairs.map (fun q => (binarize threshold q.1, binarize threshold q.2))
    .ok (mse, precisionW z, recallW z, f1W z)

/-- `evaluate_predictions` as in the source: threshold 3.5 (svd.py line 71). -/
def evaluate_predictions (true_matrix pred_matrix : Mat) :
    Except EvalError (ℚ × ℚ × ℚ × ℚ) :=
  evaluateWith (7 / 2) true_matrix pred_matrix

/-- The recall component of an evaluation result (0 on error). -/
def recallOfResult : Except EvalError (ℚ × ℚ × ℚ × ℚ) → ℚ
  | .ok t => t.2.2.1
  | .error _ => 0

/-- Positive-class recall over the selected positions with the true labels
binarized at `ttrue` and the predictions at `tpred` — the classical recall
of the binary classification, with `zero_division=0`. -/
def recallPosAt (ttrue tpred : ℚ) (true_matrix pred_matrix : Mat) : ℚ :=
  let pairs := selectedPairs true_matrix pred_matrix
  ((pairs.countP (fun q => decide (ttrue ≤ q.1) && decide (tpred ≤ q.2))) : ℚ) /
    ((pairs.countP (fun q => decide (ttrue ≤ q.1))) : ℚ)

/-- Concrete six-record ratings table (userId, movieId, rating, timestamp),
already in ascending timestamp order: the 0.8-quantile of the timestamps
1..6 is 5, so the temporal train split keeps the first five records (ratings
1..4, maximum 4) and the test split holds the last (rating 5, the global
maximum). -/
def ratingsEx : List RatingRec :=
  [⟨1, 1, 1, 1⟩, ⟨1, 2, 2, 2⟩, ⟨2, 1, 3, 3⟩, ⟨2, 2, 4, 4⟩, ⟨3, 3, 4, 5⟩, ⟨3, 1, 5, 6⟩]

/-- Concrete left factor for reconstruction examples. -/
def UEx : Mat := [[1], [0]]

/-- Concrete singular values for reconstruction examples. -/
def SigmaEx : List ℚ := [2]

/-- Concrete right factor for reconstruction examples;
`UEx · diag(SigmaEx) · VTEx = [[2, 0], [0, 0]]`. -/
def VTEx : Mat := [[1, 0]]

/- ### Basic min/max lemmas -/

theorem foldl_min_le_init (l : List ℚ) : ∀ a : ℚ, l.foldl min a ≤ a := by
  induction l with
  | nil => intro a; simp
  | cons x xs ih =>
    intro a
    calc (x :: xs).foldl min a = xs.foldl min (min a x) := rfl
    _ ≤ min a x := ih (min a x)
    _ ≤ a := min_le_left a x

theorem init_le_foldl_max (l : List ℚ) : ∀ a : ℚ, a ≤ l.foldl max a := by
  induction l with
  | nil => intro a; simp
  | cons x xs ih =>
    intro a
    calc a ≤ max a x := le_max_left a x
    _ ≤ xs.foldl max (max a x) := ih (max a x)
    _ = (x :: xs).foldl max a := rfl

theorem listMin_le_listMax {l : List ℚ} (h : l ≠ []) : listMin l ≤ listMax l := by
  match l, h with
  | x :: xs, _ =>
    calc listMin (x :: xs) = xs.foldl min x := rfl
    _ ≤ x := foldl_min_le_init xs x
    _ ≤ xs.foldl max x := init_le_foldl_max xs x
    _ = listMax (x :: xs) := rfl

theorem minRating_le_maxRating {df : List RatingRec} (h : df ≠ []) :
    minRating df ≤ maxRating df := by
  apply listMin_le_listMax
  simpa using h

/-- A function commuting with binary `min` commutes with `foldl min`. -/
theorem foldl_min_map (f : ℚ → ℚ) (hf : ∀ a b, f (min a b) = min (f a) (f b)) :
    ∀ (l : List ℚ) (a : ℚ), f (l.foldl min a) = (l.map f).foldl min (f a) := by
  intro l
  induction l with
  | nil => intro a; rfl
  | cons x xs ih =>
    intro a
    have : f (min a x) = min (f a) (f x) := hf a x
    calc f ((x :: xs).foldl min a) = f (xs.foldl min (min a x)) := rfl
    _ = (xs.map f).foldl min (f (min a x)) := ih (min a x)
    _ = (xs.map f).foldl min (min (f a) (f x)) := by rw [this]
    _ = ((x :: xs).map f).foldl min (f a) := rfl

/-- A function commuting with binary `max` commutes with `foldl max`. -/
theorem foldl_max_map (f : ℚ → ℚ) (hf : ∀ a b, f (max a b) = max (f a) (f b)) :
    ∀ (l : List ℚ) (a : ℚ), f (l.foldl max a) = (l.map f).foldl max (f a) := by
  intro l
  induction l with
  | nil => intro a; rfl
  | cons x xs ih =>
    intro a
    have : f (max a x) = max (f a) (f x) := hf a x
    calc f ((x :: xs).foldl max a) = f (xs.foldl max (max a x)) := rfl
    _ = (xs.map f).foldl max (f (max a x)) := ih (max a x)
    _ = (xs.map f).foldl max (max (f a) (f x)) := by rw [this]
    _ = ((x :: xs).map f).foldl max (f a) := rfl

theorem monotone_min_comm {f : ℚ → ℚ} (hf : ∀ x y, x ≤ y → f x ≤ f y)
    (a b : ℚ) : f (min a b) = min (f a) (f b) := by
  rcases le_total a b with h | h
  · rw [min_eq_left h, min_eq_left (hf a b h)]
  · rw [min_eq_right h, min_eq_right (hf b a h)]

theorem monotone_max_comm {f : ℚ → ℚ} (hf : ∀ x y, x ≤ y → f x ≤ f y)
    (a b : ℚ) : f (max a b) = max (f a) (f b) := by
  rcases le_total a b with h | h
  · rw [max_eq_right h, max_eq_right (hf a b h)]
  · rw [max_eq_left h, max_eq_left (hf b a h)]

theorem listMin_map_monotone {f : ℚ → ℚ} (hf : ∀ x y, x ≤ y → f x ≤ f y)
    {l : List ℚ} (h : l ≠ []) : listMin (l.map f) = f (listMin l) := by
  match l, h with
  | x :: xs, _ =>
    show (xs.map f).foldl min (f x) = f (xs.foldl min x)
    exact (foldl_min_map f (monotone_min_comm hf) xs x).symm

theorem listMax_map_monotone {f : ℚ → ℚ} (hf : ∀ x y, x ≤ y → f x ≤ f y)
    {l : List ℚ} (h : l ≠ []) : listMax (l.map f) = f (listMax l) := by
  match l, h with
  | x :: xs, _ =>
    show (xs.map f).foldl max (f x) = f (xs.foldl max x)
    exact (foldl_max_map f (monotone_max_comm hf) xs x).symm

/-- The rescale map is monotone when `lo < hi` and `rmin ≤ rmax`. -/
theorem rescale_monotone {lo hi rmin rmax : ℚ} (hlh : lo < hi) (hr : rmin ≤ rmax)
    (x y : ℚ) (hxy : x ≤ y) : rescale lo hi rmin rmax x ≤ rescale lo hi rmin rmax y := by
  unfold rescale
  have hpos : (0 : ℚ) < hi - lo := by linarith
  have hd : (0 : ℚ) ≤ rmax - rmin := by linarith
  have h1 : (x - lo) / (hi - lo) ≤ (y - lo) / (hi - lo) := by
    apply (div_le_div_iff_of_pos_right hpos).mpr
    linarith
  have h2 : (x - lo) / (hi - lo) * (rmax - rmin) ≤ (y - lo) / (hi - lo) * (rmax - rmin) :=
    mul_le_mul_of_nonneg_right h1 hd
  linarith

/-- The rescale map is strictly monotone when `lo < hi` and `rmin < rmax`. -/
theorem rescale_strictMono {lo hi rmin rmax : ℚ} (hlh : lo < hi) (hr : rmin < rmax)
    (x y : ℚ) (hxy : x < y) : rescale lo hi rmin rmax x < rescale lo hi rmin rmax y := by
  unfold rescale
  have hpos : (0 : ℚ) < hi - lo := by linarith
  have hd : (0 : ℚ) < rmax - rmin := by linarith
  have h1 : (x - lo) / (hi - lo) < (y - lo) / (hi - lo) := by
    apply (div_lt_div_iff_of_pos_right hpos).mpr
    linarith
  have h2 : (x - lo) / (hi - lo) * (rmax - rmin) < (y - lo) / (hi - lo) * (rmax - rmin) :=
    mul_lt_mul_of_pos_right h1 hd
  linarith

/-- On a non-degenerate matrix, `normalize_predictions` maps the matrix
minimum to the data minimum and the matrix maximum to the data maximum. -/
theorem normalize_min_max (reconstructed : Mat) (ratings : List RatingRec)
    (hne : reconstructed.flatten ≠ []) (hr : ratings ≠ [])
    (hnd : matMin reconstructed < matMax reconstructed) :
    matMin (normalize_predictions reconstructed ratings) = minRating ratings ∧
    matMax (normalize_predictions reconstructed ratings) = maxRating ratings := by
  set lo := matMin reconstructed with hlo
  set hi := matMax reconstructed with hhi
  set rmin := minRating ratings with hrmin
  set rmax := maxRating ratings with hrmax
  have hmono := @rescale_monotone lo hi rmin rmax hnd (minRating_le_maxRating hr)
  have hjoin : (normalize_predictions reconstructed ratings).flatten
      = reconstructed.flatten.map (rescale lo hi rmin rmax) := by
    unfold normalize_predictions
    rw [← hlo, ← hhi, ← hrmin, ← hrmax]
    exact (List.map_flatten _ _).symm
  have hne' : (hi - lo) ≠ 0 := by
    intro h
    exact absurd (by linarith : hi ≤ lo) (not_le.mpr hnd)
  constructor
  · show matMin _ = rmin
    unfold matMin
    rw [hjoin, listMin_map_monotone hmono hne]
    show rescale lo hi rmin rmax lo = rmin
    unfold rescale
    rw [sub_self, zero_div, zero_mul, zero_add]
  · show matMax _ = rmax
    unfold matMax
    rw [hjoin, listMax_map_monotone hmono hne]
    show rescale lo hi rmin rmax hi = rmax
    unfold rescale
    rw [div_self hne', one_mul]
    ring


/- ### Claim C7: the rescaling law -/

/-- C7: for every non-degenerate reconstruction (matrix maximum strictly
above matrix minimum) and non-empty ratings table, the rescaled predicted
matrix attains exactly the rating range: its minimum is `ratingRange.min`
and its maximum is `ratingRange.max` (exactly, over ℚ). -/
theorem C7_rescaling_law (reconstructed : Mat) (ratings : List RatingRec)
    (hne : reconstructed.flatten ≠ []) (hr : ratings ≠ [])
    (hnd : matMin reconstructed < matMax reconstructed) :
    matMin (normalize_predictions reconstructed ratings) = minRating ratings ∧
    matMax (normalize_predictions reconstructed ratings) = maxRating ratings :=
  normalize_min_max reconstructed ratings hne hr hnd

/-- Witness for C7 at the reconstruction `[[0, 2]]` and a ratings table with
range 1–4. -/
theorem C7_rescaling_law_witness :
    (([[0, 2]] : Mat).flatten ≠ [] ∧
      ([⟨1, 1, 1, 0⟩, ⟨1, 2, 4, 0⟩] : List RatingRec) ≠ [] ∧
      matMin [[0, 2]] < matMax [[0, 2]]) ∧
    (matMin (normalize_predictions [[0, 2]] [⟨1, 1, 1, 0⟩, ⟨1, 2, 4, 0⟩])
        = minRating [⟨1, 1, 1, 0⟩, ⟨1, 2, 4, 0⟩] ∧
      matMax (normalize_predictions [[0, 2]] [⟨1, 1, 1, 0⟩, ⟨1, 2, 4, 0⟩])
        = maxRating [⟨1, 1, 1, 0⟩, ⟨1, 2, 4, 0⟩]) := by
  have h1 : ([[0, 2]] : Mat).flatten ≠ [] := by simp
  have h2 : ([⟨1, 1, 1, 0⟩, ⟨1, 2, 4, 0⟩] : List RatingRec) ≠ [] := by simp
  have h3 : matMin [[0, 2]] < matMax [[0, 2]] := by
    norm_num [matMin, matMax, listMin, listMax, min_def, max_def]
  exact ⟨⟨h1, h2, h3⟩, C7_rescaling_law [[0, 2]] [⟨1, 1, 1, 0⟩, ⟨1, 2, 4, 0⟩] h1 h2 h3⟩

/- ### Claim C2: no fallback for the degenerate (zero-range) reconstruction -/

/-- C2 (code bug): on the constant reconstruction `[[2, 2], [2, 2]]` with
rating range 0.5–5.0, `max(raw) - min(raw) = 0`, yet `normalize_predictions`
evaluates the unguarded formula anyway: the denominator of the division is
zero (numpy propagates NaN; over ℚ the division-by-zero convention collapses
every cell to `min_rating = 1/2`), and the output is not the midpoint matrix
(11/4 everywhere) required by the specified fallback.  No degenerate-case
branch exists in the source. -/
theorem C2_no_degenerate_fallback :
    matMax [[(2 : ℚ), 2], [2, 2]] - matMin [[(2 : ℚ), 2], [2, 2]] = 0 ∧
    normalize_predictions [[2, 2], [2, 2]] [⟨1, 1, 1/2, 0⟩, ⟨1, 2, 5, 0⟩]
      = [[1/2, 1/2], [1/2, 1/2]] ∧
    normalize_predictions [[2, 2], [2, 2]] [⟨1, 1, 1/2, 0⟩, ⟨1, 2, 5, 0⟩]
      ≠ [[11/4, 11/4], [11/4, 11/4]] := by
  refine ⟨?_, ?_, ?_⟩ <;>
    norm_num [normalize_predictions, rescale, matMin, matMax, listMin, listMax,
      minRating, maxRating, min_def, max_def]

/- ### Claim C5: rank handling of the factorization engine -/

/-- C5 (counterexample): the non-empty 2×2 matrix `[[1, 2], [3, 4]]` has
`min(n_users, n_items) = 2 ≤ N_COMPONENTS`, and `train_svd` fails rather
than clamping the rank and succeeding. -/
theorem C5_counterexample :
    ([[1, 2], [3, 4]] : Mat) ≠ [] ∧
    min ([[1, 2], [3, 4]] : Mat).length (nCols [[1, 2], [3, 4]]) ≤ N_COMPONENTS ∧
    train_svd [[1, 2], [3, 4]] = .error .invalidComponents := by
  refine ⟨by simp, by decide, rfl⟩

/-- C5 (amended): `train_svd` does not clamp the configured rank; it
succeeds exactly when `N_COMPONENTS` is strictly below the number of item
columns (sklearn raises `n_components must be < n_features` otherwise —
the number of user rows plays no role). -/
theorem C5_no_clamping (m : Mat) :
    train_svd m = .ok () ↔ N_COMPONENTS < nCols m := by
  unfold train_svd truncatedSVD_fit_check
  split
  · simp_all
  · simp_all

/-- Witness for C5 (amended): a single-row matrix with 11 item columns
satisfies `N_COMPONENTS < n_items` and the factorization succeeds. -/
theorem C5_no_clamping_witness :
    N_COMPONENTS < nCols [[0, 0, 0, 0, 0, 0, 0, 0, 0, 0, 0]] ∧
    train_svd [[0, 0, 0, 0, 0, 0, 0, 0, 0, 0, 0]] = .ok () :=
  ⟨by decide, (C5_no_clamping [[0, 0, 0, 0, 0, 0, 0, 0, 0, 0, 0]]).mpr (by decide)⟩

/- ### Claim C1: whose rating range does the rescaler use? -/

/-- C1 (counterexample): in the temporal run of `main` the rating range
passed to the rescaler comes from `train_df` (svd.py line 119), not from the
original unfiltered `ratings` table.  On `ratingsEx` the full table's
maximum rating is 5 but the temporal train split's maximum is 4, and the
reconstructed-and-rescaled matrix tops out at 4 — the range used is the
train split's, contradicting the claim. -/
theorem C1_counterexample :
    matMax (temporal_pred_matrix ratingsEx UEx SigmaEx VTEx) = 4 ∧
    maxRating ratingsEx = 5 ∧
    matMax (temporal_pred_matrix ratingsEx UEx SigmaEx VTEx) ≠ maxRating ratingsEx ∧
    matMax (temporal_pred_matrix ratingsEx UEx SigmaEx VTEx)
      = maxRating (train_temporal ratingsEx) := by
  have hsorted : ratings_sorted ratingsEx = ratingsEx := by
    apply List.mergeSort_of_sorted
    norm_num [ratingsEx, List.pairwise_cons]
  have hts : (ratingsEx.map (·.timestamp)).mergeSort (fun a b => decide (a ≤ b))
      = ratingsEx.map (·.timestamp) := by
    apply List.mergeSort_of_sorted
    norm_num [ratingsEx, List.pairwise_cons]
  have hcut : temporalCutoff ratingsEx = 5 := by
    rw [temporalCutoff, hsorted, quantile80, hts]
    norm_num [ratingsEx, List.getD, show Int.toNat 4 = 4 from rfl,
      List.getElem_cons_succ, List.getElem_cons_zero]
  have htrain : train_temporal ratingsEx =
      [⟨1, 1, 1, 1⟩, ⟨1, 2, 2, 2⟩, ⟨2, 1, 3, 3⟩, ⟨2, 2, 4, 4⟩, ⟨3, 3, 4, 5⟩] := by
    rw [train_temporal, hsorted, hcut]
    norm_num [ratingsEx, List.filter_cons]
  have hdiag : matMul (diagM SigmaEx) VTEx = [[2, 0]] := by
    norm_num [matMul, diagM, dotCol, nCols, SigmaEx, VTEx,
      show List.range 1 = [0] from rfl, show List.range 2 = [0, 1] from rfl,
      List.getD]
  have hraw : matMul UEx [[2, 0]] = [[2, 0], [0, 0]] := by
    norm_num [matMul, dotCol, nCols, UEx,
      show List.range 2 = [0, 1] from rfl, List.getD]
  have hpred : temporal_pred_matrix ratingsEx UEx SigmaEx VTEx = [[4, 1], [1, 1]] := by
    rw [temporal_pred_matrix, reconstruct_matrix, hdiag, hraw, htrain]
    norm_num [normalize_predictions, rescale, matMin, matMax, listMin, listMax,
      minRating, maxRating, min_def, max_def]
  rw [hpred, htrain]
  norm_num [matMax, listMax, maxRating, ratingsEx, max_def]

/-- C1 (amended): the rating range used by the temporal run's rescaling is
exactly the rating range of the temporal *train split* record set (the
dataframe `main` passes to `reconstruct_matrix`): for any factors whose
product is non-degenerate, the predicted matrix spans precisely
`[min, max]` of `train_temporal`'s ratings. -/
theorem C1_range_from_train_split (ratings : List RatingRec)
    (U : Mat) (Sigma : List ℚ) (VT : Mat)
    (hne : (matMul U (matMul (diagM Sigma) VT)).flatten ≠ [])
    (htr : train_temporal ratings ≠ [])
    (hnd : matMin (matMul U (matMul (diagM Sigma) VT))
      < matMax (matMul U (matMul (diagM Sigma) VT))) :
    matMin (temporal_pred_matrix ratings U Sigma VT)
      = minRating (train_temporal ratings) ∧
    matMax (temporal_pred_matrix ratings U Sigma VT)
      = maxRating (train_temporal ratings) := by
  rw [temporal_pred_matrix, reconstruct_matrix]
  exact normalize_min_max _ _ hne htr hnd

/-- Witness for C1 (amended) at the concrete run `ratingsEx` with factors
`UEx, SigmaEx, VTEx` (raw product `[[2, 0], [0, 0]]`). -/
theorem C1_range_from_train_split_witness :
    ((matMul UEx (matMul (diagM SigmaEx) VTEx)).flatten ≠ [] ∧
      train_temporal ratingsEx ≠ [] ∧
      matMin (matMul UEx (matMul (diagM SigmaEx) VTEx))
        < matMax (matMul UEx (matMul (diagM SigmaEx) VTEx))) ∧
    (matMin (temporal_pred_matrix ratingsEx UEx SigmaEx VTEx)
        = minRating (train_temporal ratingsEx) ∧
      matMax (temporal_pred_matrix ratingsEx UEx SigmaEx VTEx)
        = maxRating (train_temporal ratingsEx)) := by
  have hdiag : matMul (diagM SigmaEx) VTEx = [[2, 0]] := by
    norm_num [matMul, diagM, dotCol, nCols, SigmaEx, VTEx,
      show List.range 1 = [0] from rfl, show List.range 2 = [0, 1] from rfl,
      List.getD]
  have hraw : matMul UEx (matMul (diagM SigmaEx) VTEx) = [[2, 0], [0, 0]] := by
    rw [hdiag]
    norm_num [matMul, dotCol, nCols, UEx,
      show List.range 2 = [0, 1] from rfl, List.getD]
  have hsorted : ratings_sorted ratingsEx = ratingsEx := by
    apply List.mergeSort_of_sorted
    norm_num [ratingsEx, List.pairwise_cons]
  have hts : (ratingsEx.map (·.timestamp)).mergeSort (fun a b => decide (a ≤ b))
      = ratingsEx.map (·.timestamp) := by
    apply List.mergeSort_of_sorted
    norm_num [ratingsEx, List.pairwise_cons]
  have hcut : temporalCutoff ratingsEx = 5 := by
    rw [temporalCutoff, hsorted, quantile80, hts]
    norm_num [ratingsEx, List.getD, show Int.toNat 4 = 4 from rfl,
      List.getElem_cons_succ, List.getElem_cons_zero]
  have htrain : train_temporal ratingsEx =
      [⟨1, 1, 1, 1⟩, ⟨1, 2, 2, 2⟩, ⟨2, 1, 3, 3⟩, ⟨2, 2, 4, 4⟩, ⟨3, 3, 4, 5⟩] := by
    rw [train_temporal, hsorted, hcut]
    norm_num [ratingsEx, List.filter_cons]
  have h1 : (matMul UEx (matMul (diagM SigmaEx) VTEx)).flatten ≠ [] := by
    rw [hraw]; simp
  have h2 : train_temporal ratingsEx ≠ [] := by rw [htrain]; simp
  have h3 : matMin (matMul UEx (matMul (diagM SigmaEx) VTEx))
      < matMax (matMul UEx (matMul (diagM SigmaEx) VTEx)) := by
    rw [hraw]
    norm_num [matMin, matMax, listMin, listMax, min_def, max_def]
  exact ⟨⟨h1, h2, h3⟩, C1_range_from_train_split ratingsEx UEx SigmaEx VTEx h1 h2 h3⟩

/- ### Claim C6: split alignment -/

theorem mem_sortedUnique {x : ℕ} {l : List ℕ} : x ∈ sortedUnique l ↔ x ∈ l := by
  unfold sortedUnique
  rw [List.mem_mergeSort, List.mem_dedup]

/-- C6: after `preprocess_splits` the two pivot tables have identical row
and column index lists; a user belongs to them exactly when it appears in
both splits (likewise for movies); and the common index order is the one
induced by the train matrix (a sublist of its sorted index). -/
theorem C6_alignment (train_df test_df : List RatingRec) :
    (preprocess_splits train_df test_df).1.index
      = (preprocess_splits train_df test_df).2.index ∧
    (preprocess_splits train_df test_df).1.columns
      = (preprocess_splits train_df test_df).2.columns ∧
    (∀ u, u ∈ (preprocess_splits train_df test_df).1.index ↔
      (u ∈ train_df.map (·.userId) ∧ u ∈ test_df.map (·.userId))) ∧
    (∀ c, c ∈ (preprocess_splits train_df test_df).1.columns ↔
      (c ∈ train_df.map (·.movieId) ∧ c ∈ test_df.map (·.movieId))) ∧
    (preprocess_splits train_df test_df).1.index.Sublist
      (create_user_movie_matrix train_df).index ∧
    (preprocess_splits train_df test_df).1.columns.Sublist
      (create_user_movie_matrix train_df).columns := by
  refine ⟨rfl, rfl, ?_, ?_, List.filter_sublist _, List.filter_sublist _⟩
  · intro u
    show u ∈ (create_user_movie_matrix train_df).index.filter
        (fun v => decide (v ∈ (create_user_movie_matrix test_df).index)) ↔ _
    simp only [List.mem_filter, decide_eq_true_eq, create_user_movie_matrix,
      mem_sortedUnique]
  · intro c
    show c ∈ (create_user_movie_matrix train_df).columns.filter
        (fun v => decide (v ∈ (create_user_movie_matrix test_df).columns)) ↔ _
    simp only [List.mem_filter, decide_eq_true_eq, create_user_movie_matrix,
      mem_sortedUnique]

/- ### Claims C8 and C3: the recommender -/

theorem sortRecs_pairwise (l : List (ℕ × ℚ)) :
    (sortRecs l).Pairwise (fun a b => b.2 ≤ a.2) := by
  have htrans : ∀ (a b c : ℕ × ℚ),
      decide (b.2 ≤ a.2) = true → decide (c.2 ≤ b.2) = true →
      decide (c.2 ≤ a.2) = true := by
    intro a b c hab hbc
    simp only [decide_eq_true_eq] at *
    exact le_trans hbc hab
  have htotal : ∀ (a b : ℕ × ℚ),
      (decide (b.2 ≤ a.2) || decide (a.2 ≤ b.2)) = true := by
    intro a b
    rcases le_total a.2 b.2 with h | h <;> simp [h]
  have h := @List.sorted_mergeSort (ℕ × ℚ) (fun a b => decide (b.2 ≤ a.2))
    htrans htotal l
  exact h.imp (fun hab => of_decide_eq_true hab)

/-- C8: the recommender returns `[]` for a user absent from the user index,
returns at most `top_n` pairs, and the returned scores are non-increasing. -/
theorem C8_recommender_shape (user_id : ℕ) (pred_matrix : Mat)
    (user_mapper movie_mapper : List ℕ) (top_n : ℕ) :
    (user_id ∉ user_mapper →
      recommend_movies user_id pred_matrix user_mapper movie_mapper top_n = []) ∧
    (recommend_movies user_id pred_matrix user_mapper movie_mapper top_n).length ≤ top_n ∧
    (recommend_movies user_id pred_matrix user_mapper movie_mapper top_n).Pairwise
      (fun a b => b.2 ≤ a.2) := by
  refine ⟨?_, ?_, ?_⟩
  · intro h
    unfold recommend_movies
    rw [if_neg h]
  · unfold recommend_movies
    split
    · rw [List.length_take]
      exact Nat.min_le_left _ _
    · simp
  · unfold recommend_movies
    split
    · exact List.Pairwise.sublist (List.take_sublist _ _) (sortRecs_pairwise _)
    · simp

/-- Witness for C8 at a user id absent from the user index. -/
theorem C8_recommender_shape_witness :
    (9 ∉ ([1, 2] : List ℕ)) ∧
    recommend_movies 9 [[1, 0]] [1, 2] [10, 11] 5 = [] :=
  ⟨by decide, (C8_recommender_shape 9 [[1, 0]] [1, 2] [10, 11] 5).1 (by decide)⟩

/-- C3: for a user present in the user index, every recommendation is
`(movie_mapper[j], row[j])` for a column `j` of that user's row of the
predicted matrix whose value is the sentinel 0 — eligibility and score come
from the same predicted-matrix row — and, whenever `top_n` does not
truncate, every sentinel column of that row is recommended. -/
theorem C3_candidates_sentinel_row (user_id : ℕ) (pred_matrix : Mat)
    (user_mapper movie_mapper : List ℕ) (top_n : ℕ)
    (h : user_id ∈ user_mapper) :
    (∀ p ∈ recommend_movies user_id pred_matrix user_mapper movie_mapper top_n,
      ∃ j, j < (pred_matrix.getD (user_mapper.indexOf user_id) []).length ∧
        (pred_matrix.getD (user_mapper.indexOf user_id) []).getD j 0 = 0 ∧
        p = (movie_mapper.getD j 0,
          (pred_matrix.getD (user_mapper.indexOf user_id) []).getD j 0)) ∧
    ((List.range (pred_matrix.getD (user_mapper.indexOf user_id) []).length).countP
        (fun j => decide ((pred_matrix.getD (user_mapper.indexOf user_id) []).getD j 0 = 0))
        ≤ top_n →
      ∀ j, j < (pred_matrix.getD (user_mapper.indexOf user_id) []).length →
        (pred_matrix.getD (user_mapper.indexOf user_id) []).getD j 0 = 0 →
        (movie_mapper.getD j 0, (pred_matrix.getD (user_mapper.indexOf user_id) []).getD j 0)
          ∈ recommend_movies user_id pred_matrix user_mapper movie_mapper top_n) := by
  set row := pred_matrix.getD (user_mapper.indexOf user_id) [] with hrow
  have hrec : recommend_movies user_id pred_matrix user_mapper movie_mapper top_n
      = (sortRecs (((List.range row.length).filter
          (fun j => decide (row.getD j 0 = 0))).map
          (fun j => (movie_mapper.getD j 0, row.getD j 0)))).take top_n := by
    unfold recommend_movies
    rw [if_pos h]
  constructor
  · intro p hp
    rw [hrec] at hp
    have hp1 := List.mem_of_mem_take hp
    rw [sortRecs, List.mem_mergeSort] at hp1
    obtain ⟨j, hj, rfl⟩ := List.mem_map.mp hp1
    rw [List.mem_filter, List.mem_range] at hj
    exact ⟨j, hj.1, of_decide_eq_true hj.2, rfl⟩
  · intro hcount j hjlt hj0
    rw [hrec]
    have hlen : (sortRecs (((List.range row.length).filter
        (fun j => decide (row.getD j 0 = 0))).map
        (fun j => (movie_mapper.getD j 0, row.getD j 0)))).length ≤ top_n := by
      rw [sortRecs, List.length_mergeSort, List.length_map,
        ← List.countP_eq_length_filter]
      exact hcount
    rw [List.take_of_length_le hlen, sortRecs, List.mem_mergeSort]
    apply List.mem_map.mpr
    refine ⟨j, ?_, rfl⟩
    rw [List.mem_filter, List.mem_range]
    exact ⟨hjlt, decide_eq_true hj0⟩

/-- Witness for C3: user 7 sits at position 1 of the user index; its row
`[4, 0, 2]` has the sentinel only in column 1. -/
theorem C3_candidates_sentinel_row_witness :
    (7 ∈ ([5, 7] : List ℕ)) ∧
    ((∀ p ∈ recommend_movies 7 [[1, 2, 3], [4, 0, 2]] [5, 7] [10, 11, 12] 5,
      ∃ j, j < (([[1, 2, 3], [4, 0, 2]] : Mat).getD (([5, 7] : List ℕ).indexOf 7) []).length ∧
        (([[1, 2, 3], [4, 0, 2]] : Mat).getD (([5, 7] : List ℕ).indexOf 7) []).getD j 0 = 0 ∧
        p = (([10, 11, 12] : List ℕ).getD j 0,
          (([[1, 2, 3], [4, 0, 2]] : Mat).getD (([5, 7] : List ℕ).indexOf 7) []).getD j 0)) ∧
    ((List.range (([[1, 2, 3], [4, 0, 2]] : Mat).getD (([5, 7] : List ℕ).indexOf 7) []).length).countP
        (fun j => decide ((([[1, 2, 3], [4, 0, 2]] : Mat).getD (([5, 7] : List ℕ).indexOf 7) []).getD j 0 = 0))
        ≤ 5 →
      ∀ j, j < (([[1, 2, 3], [4, 0, 2]] : Mat).getD (([5, 7] : List ℕ).indexOf 7) []).length →
        (([[1, 2, 3], [4, 0, 2]] : Mat).getD (([5, 7] : List ℕ).indexOf 7) []).getD j 0 = 0 →
        (([10, 11, 12] : List ℕ).getD j 0,
          (([[1, 2, 3], [4, 0, 2]] : Mat).getD (([5, 7] : List ℕ).indexOf 7) []).getD j 0)
          ∈ recommend_movies 7 [[1, 2, 3], [4, 0, 2]] [5, 7] [10, 11, 12] 5)) :=
  ⟨by decide,
    C3_candidates_sentinel_row 7 [[1, 2, 3], [4, 0, 2]] [5, 7] [10, 11, 12] 5 (by decide)⟩

/- ### Claim C10: rescaling preserves order and ranking -/

theorem getD_map_row (f : ℚ → ℚ) (m : Mat) (i : ℕ) :
    (m.map (fun row => row.map f)).getD i [] = (m.getD i []).map f := by
  by_cases hi : i < m.length
  · rw [List.getD_eq_getElem _ _ (by simpa using hi), List.getD_eq_getElem _ _ hi,
      List.getElem_map]
  · rw [List.getD_eq_default _ _ (by simpa using Nat.le_of_not_lt hi),
      List.getD_eq_default _ _ (Nat.le_of_not_lt hi)]
    rfl

theorem getD_map_entry (f : ℚ → ℚ) (row : List ℚ) (j : ℕ) (hj : j < row.length) :
    (row.map f).getD j 0 = f (row.getD j 0) := by
  rw [List.getD_eq_getElem _ _ (by simpa using hj), List.getD_eq_getElem _ _ hj,
    List.getElem_map]

/-- Each in-range entry of the rescaled matrix is the rescale image of the
corresponding raw entry. -/
theorem matEntry_normalize (m : Mat) (ratings : List RatingRec) (i j : ℕ)
    (hj : j < (m.getD i []).length) :
    matEntry (normalize_predictions m ratings) i j
      = rescale (matMin m) (matMax m) (minRating ratings) (maxRating ratings)
          (matEntry m i j) := by
  unfold matEntry normalize_predictions
  rw [getD_map_row, getD_map_entry _ _ _ hj]

/-- C10: with a non-degenerate reconstruction and a non-degenerate rating
range, rescaling is strictly increasing cell-wise (strict inequalities and
equalities of raw entries carry over to the rescaled entries), and the
recommender's descending sort yields the same item ordering on rescaled
scores as on raw scores. -/
theorem C10_rescale_preserves_ranking (m : Mat) (ratings : List RatingRec)
    (hnd : matMin m < matMax m) (hrr : minRating ratings < maxRating ratings) :
    (∀ i j i' j', j < (m.getD i []).length → j' < (m.getD i' []).length →
      matEntry m i' j' < matEntry m i j →
      matEntry (normalize_predictions m ratings) i' j'
        < matEntry (normalize_predictions m ratings) i j) ∧
    (∀ i j i' j', j < (m.getD i []).length → j' < (m.getD i' []).length →
      matEntry m i j = matEntry m i' j' →
      matEntry (normalize_predictions m ratings) i j
        = matEntry (normalize_predictions m ratings) i' j') ∧
    (∀ l : List (ℕ × ℚ),
      (sortRecs (l.map (fun p => (p.1,
        rescale (matMin m) (matMax m) (minRating ratings) (maxRating ratings) p.2)))).map
          Prod.fst
        = (sortRecs l).map Prod.fst) := by
  have hiff : ∀ x y : ℚ, (x ≤ y ↔ rescale (matMin m) (matMax m)
      (minRating ratings) (maxRating ratings) x
        ≤ rescale (matMin m) (matMax m) (minRating ratings) (maxRating ratings) y) := by
    intro x y
    constructor
    · exact rescale_monotone hnd (le_of_lt hrr) x y
    · intro hf
      by_contra hxy
      exact absurd hf (not_le.mpr (rescale_strictMono hnd hrr y x (not_le.mp hxy)))
  refine ⟨?_, ?_, ?_⟩
  · intro i j i' j' hj hj' hlt
    rw [matEntry_normalize m ratings i j hj, matEntry_normalize m ratings i' j' hj']
    exact rescale_strictMono hnd hrr _ _ hlt
  · intro i j i' j' hj hj' heq
    rw [matEntry_normalize m ratings i j hj, matEntry_normalize m ratings i' j' hj', heq]
  · intro l
    have hl : ∀ a ∈ l, ∀ b ∈ l,
        (fun p q : ℕ × ℚ => decide (q.2 ≤ p.2)) a b
          = (fun p q : ℕ × ℚ => decide (q.2 ≤ p.2))
            (a.1, rescale (matMin m) (matMax m) (minRating ratings) (maxRating ratings) a.2)
            (b.1, rescale (matMin m) (matMax m) (minRating ratings) (maxRating ratings) b.2) := by
      intro a _ b _
      exact decide_eq_decide.mpr (hiff b.2 a.2)
    have hmap : (l.mergeSort (fun p q : ℕ × ℚ => decide (q.2 ≤ p.2))).map
        (fun p : ℕ × ℚ => (p.1,
          rescale (matMin m) (matMax m) (minRating ratings) (maxRating ratings) p.2))
        = (l.map (fun p : ℕ × ℚ => (p.1,
          rescale (matMin m) (matMax m) (minRating ratings) (maxRating ratings) p.2))).mergeSort
          (fun p q : ℕ × ℚ => decide (q.2 ≤ p.2)) := List.map_mergeSort hl
    rw [sortRecs, ← hmap, sortRecs, List.map_map]
    rfl

/-- Witness for C10 at the reconstruction `[[0, 2]]` and a ratings table
with range 1–4. -/
theorem C10_rescale_preserves_ranking_witness :
    (matMin [[0, 2]] < matMax [[0, 2]] ∧
      minRating [⟨1, 1, 1, 0⟩, ⟨1, 2, 4, 0⟩]
        < maxRating [⟨1, 1, 1, 0⟩, ⟨1, 2, 4, 0⟩]) ∧
    ((∀ i j i' j', j < (([[0, 2]] : Mat).getD i []).length →
      j' < (([[0, 2]] : Mat).getD i' []).length →
      matEntry [[0, 2]] i' j' < matEntry [[0, 2]] i j →
      matEntry (normalize_predictions [[0, 2]] [⟨1, 1, 1, 0⟩, ⟨1, 2, 4, 0⟩]) i' j'
        < matEntry (normalize_predictions [[0, 2]] [⟨1, 1, 1, 0⟩, ⟨1, 2, 4, 0⟩]) i j) ∧
    (∀ i j i' j', j < (([[0, 2]] : Mat).getD i []).length →
      j' < (([[0, 2]] : Mat).getD i' []).length →
      matEntry [[0, 2]] i j = matEntry [[0, 2]] i' j' →
      matEntry (normalize_predictions [[0, 2]] [⟨1, 1, 1, 0⟩, ⟨1, 2, 4, 0⟩]) i j
        = matEntry (normalize_predictions [[0, 2]] [⟨1, 1, 1, 0⟩, ⟨1, 2, 4, 0⟩]) i' j') ∧
    (∀ l : List (ℕ × ℚ),
      (sortRecs (l.map (fun p => (p.1,
        rescale (matMin [[0, 2]]) (matMax [[0, 2]])
          (minRating [⟨1, 1, 1, 0⟩, ⟨1, 2, 4, 0⟩])
          (maxRating [⟨1, 1, 1, 0⟩, ⟨1, 2, 4, 0⟩]) p.2)))).map Prod.fst
        = (sortRecs l).map Prod.fst)) := by
  have h1 : matMin [[0, 2]] < matMax [[0, 2]] := by
    norm_num [matMin, matMax, listMin, listMax, min_def, max_def]
  have h2 : minRating [⟨1, 1, 1, 0⟩, ⟨1, 2, 4, 0⟩]
      < maxRating [⟨1, 1, 1, 0⟩, ⟨1, 2, 4, 0⟩] := by
    norm_num [minRating, maxRating, listMin, listMax, min_def, max_def]
  exact ⟨⟨h1, h2⟩,
    C10_rescale_preserves_ranking [[0, 2]] [⟨1, 1, 1, 0⟩, ⟨1, 2, 4, 0⟩] h1 h2⟩

/- ### Claim C4: the evaluator's sentinel mask and the empty-selection error -/

/-- Equal pointwise values at the non-sentinel positions give equal selected
pair lists. -/
theorem zip_filter_ext : ∀ (t p p' : List ℚ), p.length = t.length →
    p'.length = t.length →
    (∀ i, t.getD i 0 ≠ 0 → p.getD i 0 = p'.getD i 0) →
    (t.zip p).filter (fun q => decide (q.1 ≠ 0))
      = (t.zip p').filter (fun q => decide (q.1 ≠ 0)) := by
  intro t
  induction t with
  | nil => intro p p' _ _ _; simp
  | cons x ts ih =>
    intro p p' hp hp' hx
    match p, hp, p', hp' with
    | y :: ps, hp, y' :: ps', hp' =>
      have htail := ih ps ps' (by simpa using hp) (by simpa using hp')
        (fun i hi => hx (i + 1) hi)
      by_cases hx0 : x = 0
      · simp only [List.zip_cons_cons, List.filter_cons, hx0]
        simpa using htail
      · have hyy : y = y' := hx 0 hx0
        simp only [List.zip_cons_cons, List.filter_cons, hyy]
        rw [htail]

/-- C4: an all-sentinel test matrix makes the evaluator fail with
`insufficientData` (never a metric tuple); a test matrix with at least one
real rating yields a metric tuple; and the metrics depend only on the
predicted values at the non-sentinel positions of the test matrix. -/
theorem C4_evaluator_mask (true_matrix pred_matrix pred_matrix' : Mat) :
    ((∀ x ∈ true_matrix.flatten, x = 0) →
      evaluate_predictions true_matrix pred_matrix = .error .insufficientData) ∧
    (pred_matrix.flatten.length = true_matrix.flatten.length →
      (∃ x ∈ true_matrix.flatten, x ≠ 0) →
      ∃ tuple, evaluate_predictions true_matrix pred_matrix = .ok tuple) ∧
    (pred_matrix.flatten.length = true_matrix.flatten.length →
      pred_matrix'.flatten.length = true_matrix.flatten.length →
      (∀ i, true_matrix.flatten.getD i 0 ≠ 0 →
        pred_matrix.flatten.getD i 0 = pred_matrix'.flatten.getD i 0) →
      evaluate_predictions true_matrix pred_matrix
        = evaluate_predictions true_matrix pred_matrix') := by
  refine ⟨?_, ?_, ?_⟩
  · intro hall
    have hsel : selectedPairs true_matrix pred_matrix = [] := by
      rw [selectedPairs, List.filter_eq_nil_iff]
      intro q hq
      have hq1 := (List.of_mem_zip hq).1
      simp [hall q.1 hq1]
    rw [evaluate_predictions, evaluateWith]
    rw [hsel]
    rfl
  · intro hlen ⟨x, hx, hx0⟩
    obtain ⟨i, hi, hxeq⟩ := List.getElem_of_mem hx
    have hip : i < pred_matrix.flatten.length := by rw [hlen]; exact hi
    have hpair : (x, pred_matrix.flatten[i]) ∈
        true_matrix.flatten.zip pred_matrix.flatten := by
      rw [List.mem_iff_getElem]
      refine ⟨i, ?_, ?_⟩
      · rw [List.length_zip, hlen, Nat.min_self]
        exact hi
      · rw [List.getElem_zip, hxeq]
    have hsel : (x, pred_matrix.flatten[i]) ∈ selectedPairs true_matrix pred_matrix := by
      rw [selectedPairs, List.mem_filter]
      exact ⟨hpair, decide_eq_true hx0⟩
    have hne : ¬ (selectedPairs true_matrix pred_matrix).isEmpty := by
      rw [List.isEmpty_iff]
      exact List.ne_nil_of_mem hsel
    rw [evaluate_predictions, evaluateWith]
    simp only [hne, if_false, Bool.false_eq_true]
    exact ⟨_, rfl⟩
  · intro hlen hlen' hext
    have hsel : selectedPairs true_matrix pred_matrix
        = selectedPairs true_matrix pred_matrix' :=
      zip_filter_ext true_matrix.flatten pred_matrix.flatten pred_matrix'.flatten
        hlen hlen' hext
    rw [evaluate_predictions, evaluate_predictions, evaluateWith, evaluateWith, hsel]

/-- Witness for C4: an all-sentinel 1×2 test matrix makes the evaluator
fail, and predictions differing only at a sentinel position evaluate
identically. -/
theorem C4_evaluator_mask_witness :
    evaluate_predictions [[0, 0]] [[1, 2]] = .error .insufficientData ∧
    evaluate_predictions [[0, 3]] [[1, 4]] = evaluate_predictions [[0, 3]] [[9, 4]] := by
  constructor
  · exact (C4_evaluator_mask [[0, 0]] [[1, 2]] [[1, 2]]).1 (by
      intro x hx
      simpa using hx)
  · refine (C4_evaluator_mask [[0, 3]] [[1, 4]] [[9, 4]]).2.2 rfl rfl ?_
    intro i hi
    match i with
    | 0 => exact absurd rfl hi
    | 1 => rfl
    | n + 2 => exact absurd rfl hi

/- ### Claim C9: recall vs binarization threshold -/

/-- C9 (counterexample): on test matrix `[[4]]` and prediction `[[3]]`, the
evaluator's weighted recall is 0 at threshold 3.5 (true label 1, predicted
label 0) but 1 at threshold 5.0 (both labels 0) — raising the threshold
*increases* the recall the evaluator computes, because the true labels are
re-binarized together with the predictions. -/
theorem C9_counterexample :
    recallOfResult (evaluateWith 5 [[4]] [[3]]) = 1 ∧
    recallOfResult (evaluateWith (7 / 2) [[4]] [[3]]) = 0 ∧
    recallOfResult (evaluateWith (7 / 2) [[4]] [[3]])
      < recallOfResult (evaluateWith 5 [[4]] [[3]]) := by
  have h5 : evaluateWith 5 [[4]] [[3]] = .ok (1, 1, 1, 1) := by
    norm_num [evaluateWith, selectedPairs, List.filter_cons, precisionW, recallW,
      f1W, weightedAvg, classPrecision, classRecall, classF1, truePosOf,
      supportOf, predPosOf, binarize, List.countP_cons, List.countP_nil]
  have h35 : evaluateWith (7 / 2) [[4]] [[3]] = .ok (1, 0, 0, 0) := by
    norm_num [evaluateWith, selectedPairs, List.filter_cons, precisionW, recallW,
      f1W, weightedAvg, classPrecision, classRecall, classF1, truePosOf,
      supportOf, predPosOf, binarize, List.countP_cons, List.countP_nil]
  rw [h5, h35]
  norm_num [recallOfResult]

/-- C9 (amended): with the true labels binarized at the evaluator's fixed
threshold 3.5 and only the predictions re-binarized, raising the prediction
threshold from 3.5 to 5.0 never increases the positive-class recall. -/
theorem C9_recall_antitone_in_pred_threshold (true_matrix pred_matrix : Mat) :
    recallPosAt (7 / 2) 5 true_matrix pred_matrix
      ≤ recallPosAt (7 / 2) (7 / 2) true_matrix pred_matrix := by
  unfold recallPosAt
  dsimp only
  have hcount : (selectedPairs true_matrix pred_matrix).countP
        (fun q => decide ((7 : ℚ) / 2 ≤ q.1) && decide ((5 : ℚ) ≤ q.2))
      ≤ (selectedPairs true_matrix pred_matrix).countP
        (fun q => decide ((7 : ℚ) / 2 ≤ q.1) && decide ((7 : ℚ) / 2 ≤ q.2)) := by
    apply List.countP_mono_left
    intro q _ hq
    simp only [Bool.and_eq_true, decide_eq_true_eq] at hq ⊢
    refine ⟨hq.1, le_trans ?_ hq.2⟩
    norm_num
  set d := (selectedPairs true_matrix pred_matrix).countP
    (fun q => decide ((7 : ℚ) / 2 ≤ q.1)) with hd
  by_cases hd0 : d = 0
  · rw [hd0]
    norm_num
  · have hdpos : (0 : ℚ) < (d : ℚ) :=
      Nat.cast_pos.mpr (Nat.pos_of_ne_zero hd0)
    exact (div_le_div_iff_of_pos_right hdpos).mpr (Nat.cast_le.mpr hcount)
